import Mathlib

/-!
Shallow embedding of the `factory` Go package (factory-go): a generic
test-data builder with defaults, traits, cyclic sequences, named states,
hooks and optional persistence.

Modelling conventions:
* Go mutation functions `func(*T)` become pure functions `T → T`.
* The `int64` sequence counter is modelled as `Int` (the counter is only
  ever incremented by one from 0 or reset to 0; overflow is unreachable
  in the stated properties).
* The `context.Context` argument is threaded opaquely by the source and
  never inspected, so it is omitted.
* Caller-supplied effectful collaborators are purified: the persist
  function `func(ctx, *T) (*T, error)` becomes `σ → T → σ × Except E T`
  where `σ` is the caller's private persistence state (this is what a
  call-counting test double is), and hooks `func(ctx, *T) error` (which
  may also mutate `*T`) become `T → Except E T`.
* Externally observable callback invocations (the base constructor, the
  tap observer, hooks, persist) are recorded in an event trace, so
  "persist is never invoked" is a statement about the trace.
* Go `panic` is modelled by an explicit `Outcome.panic` constructor.
-/

namespace FactoryGo

/-- Trait mutates a T (Go: `type Trait[T any] func(*T)`). -/
abbrev Trait (T : Type) := T → T

/-- Observable callback events emitted while producing one item. -/
inductive Ev (T : Type) where
  /-- the base constructor `makeFn` was invoked with sequence value `s` -/
  | construct (s : Int)
  /-- the tap observer was invoked with the finished value -/
  | tap (t : T)
  /-- the before-create hook with index `i` was invoked -/
  | beforeHook (i : Nat)
  /-- the persist function was invoked -/
  | persistCall
  /-- the after-create hook with index `i` was invoked -/
  | afterHook (i : Nat)
deriving DecidableEq

/-- Result of a fallible operation; `panic` models a Go panic. -/
inductive Outcome (E A : Type) where
  | ok (a : A)
  | err (e : E)
  | panic (msg : String)
deriving DecidableEq

/-- Factory builds Ts with defaults, traits, and optional persistence
(Go: `type Factory[T any] struct`). `σ` is the persistence-state type of
the caller's persist collaborator, `E` the error type. -/
structure Factory (σ E T : Type) where
  /-- base constructor, `makeFn func(seq int64) T` -/
  makeFn : Int → T
  /-- applied first (Go field `defaults`) -/
  defaults : List (Trait T)
  /-- applied only for Raw methods (Go field `rawDefaults`) -/
  rawDefaults : List (Trait T)
  /-- applied second (Go field `traits`) -/
  traits : List (Trait T)
  /-- cycled through for each item (Go field `sequences`) -/
  sequences : List (Trait T)
  /-- named states (Go field `states`, a `map[string]Trait[T]`) -/
  states : String → Option (Trait T)
  /-- optional persistence collaborator (Go field `persist`) -/
  persist : Option (σ → T → σ × Except E T)
  /-- hooks before persistence (Go field `before`) -/
  before : List (T → Except E T)
  /-- hooks after persistence (Go field `after`) -/
  after : List (T → Except E T)
  /-- whether a tap observer is set (Go field `tapFn`, modelled by its
  presence; its invocations are recorded in the event trace) -/
  tapSet : Bool
  /-- sequence counter (Go field `seq`, an atomic `int64`) -/
  seq : Int
  /-- count for the fluent API (Go field `count`) -/
  count : Int

/-- New constructs a factory with a default make function. -/
def New {σ E T : Type} (makeFn : Int → T) : Factory σ E T :=
  { makeFn := makeFn
    defaults := []
    rawDefaults := []
    traits := []
    sequences := []
    states := fun _ => none
    persist := none
    before := []
    after := []
    tapSet := false
    seq := 0
    count := 0 }

variable {σ E T R V : Type}

/-- WithDefaults appends default traits applied first. -/
def Factory.WithDefaults (f : Factory σ E T) (ts : List (Trait T)) : Factory σ E T :=
  { f with defaults := f.defaults ++ ts }

/-- WithRawDefaults appends traits applied only on the Raw path. -/
def Factory.WithRawDefaults (f : Factory σ E T) (ts : List (Trait T)) : Factory σ E T :=
  { f with rawDefaults := f.rawDefaults ++ ts }

/-- WithTraits appends global traits applied to every Make/Create call. -/
def Factory.WithTraits (f : Factory σ E T) (ts : List (Trait T)) : Factory σ E T :=
  { f with traits := f.traits ++ ts }

/-- Sequence replaces the cyclic sequence traits wholesale. -/
def Factory.Sequence (f : Factory σ E T) (ts : List (Trait T)) : Factory σ E T :=
  { f with sequences := ts }

/-- DefineState registers (insert or overwrite) a named state. -/
def Factory.DefineState (f : Factory σ E T) (name : String) (tr : Trait T) : Factory σ E T :=
  { f with states := fun n => if n = name then some tr else f.states n }

/-- State applies a previously defined named state: it shallow-copies the
factory (in particular the Go copy keeps the current `seq` value), copies
the trait list and appends the state trait. An unknown name panics. -/
def Factory.State (f : Factory σ E T) (name : String) : Outcome E (Factory σ E T) :=
  match f.states name with
  | none => .panic ("factory: unknown state " ++ name)
  | some tr => .ok { f with traits := f.traits ++ [tr] }

/-- WithPersist sets the persistence collaborator. -/
def Factory.WithPersist (f : Factory σ E T) (p : σ → T → σ × Except E T) : Factory σ E T :=
  { f with persist := some p }

/-- BeforeCreate appends a hook executed before persistence. -/
def Factory.BeforeCreate (f : Factory σ E T) (h : T → Except E T) : Factory σ E T :=
  { f with before := f.before ++ [h] }

/-- AfterCreate appends a hook executed after persistence. -/
def Factory.AfterCreate (f : Factory σ E T) (h : T → Except E T) : Factory σ E T :=
  { f with after := f.after ++ [h] }

/-- Tap sets the tap observer (modelled by presence). -/
def Factory.Tap (f : Factory σ E T) : Factory σ E T :=
  { f with tapSet := true }

/-- When appends traits only if the condition is true. -/
def Factory.When (f : Factory σ E T) (condition : Bool) (ts : List (Trait T)) : Factory σ E T :=
  if condition then { f with traits := f.traits ++ ts } else f

/-- Unless appends traits only if the condition is false. -/
def Factory.Unless (f : Factory σ E T) (condition : Bool) (ts : List (Trait T)) : Factory σ E T :=
  if !condition then { f with traits := f.traits ++ ts } else f

/-- Clone creates a deep copy of the factory, resetting the sequence
counter to 0 (Go: explicit field-by-field copy with `seq: 0`). -/
def Factory.Clone (f : Factory σ E T) : Factory σ E T :=
  { makeFn := f.makeFn
    defaults := f.defaults
    rawDefaults := f.rawDefaults
    traits := f.traits
    sequences := f.sequences
    states := f.states
    persist := f.persist
    before := f.before
    after := f.after
    tapSet := f.tapSet
    seq := 0
    count := f.count }

/-- ResetSequence resets the sequence counter to 0. -/
def Factory.ResetSequence (f : Factory σ E T) : Factory σ E T :=
  { f with seq := 0 }

/-- Applies a list of mutation functions in list order
(Go: `for _, tr := range ts { tr(&t) }`). -/
def applyTraits (ts : List (Trait T)) (t : T) : T :=
  ts.foldl (fun acc tr => tr acc) t

/-- The cyclic-sequence stage of the pipeline: when the pattern is
non-empty apply the element at index `(seq-1) % len` (Go `%` on `int64`
is truncated remainder, `Int.tmod`); an empty pattern applies nothing.
For sequence values `s ≥ 1` (the only reachable ones) the index is in
range, so `getD`'s fallback is never hit. -/
def seqStage (pat : List (Trait T)) (s : Int) (t : T) : T :=
  if pat.isEmpty then t
  else (pat.getD ((s - 1).tmod (pat.length : Int)).toNat id) t

/-- Result of producing one item in memory: the value, the advanced
factory, and the emitted event trace. -/
structure MakeRes (σ E T : Type) where
  val : T
  fac : Factory σ E T
  evs : List (Ev T)

/-- Make builds but does not persist. Pipeline: increment counter, run
`makeFn`, then defaults, then global traits, then the sequence stage,
then per-call traits, then the tap observer. -/
def Factory.Make (f : Factory σ E T) (ts : List (Trait T)) : MakeRes σ E T :=
  let s := f.seq + 1
  let t1 := applyTraits f.defaults (f.makeFn s)
  let t2 := applyTraits f.traits t1
  let t3 := seqStage f.sequences s t2
  let t4 := applyTraits ts t3
  ⟨t4, { f with seq := s }, Ev.construct s :: (if f.tapSet then [Ev.tap t4] else [])⟩

/-- Raw builds but does not persist, additionally applying `rawDefaults`
between defaults and global traits. -/
def Factory.Raw (f : Factory σ E T) (ts : List (Trait T)) : MakeRes σ E T :=
  let s := f.seq + 1
  let t1 := applyTraits f.defaults (f.makeFn s)
  let t1r := applyTraits f.rawDefaults t1
  let t2 := applyTraits f.traits t1r
  let t3 := seqStage f.sequences s t2
  let t4 := applyTraits ts t3
  ⟨t4, { f with seq := s }, Ev.construct s :: (if f.tapSet then [Ev.tap t4] else [])⟩

/-- Result of producing many items in memory. -/
structure MakeManyRes (σ E T : Type) where
  vals : List T
  fac : Factory σ E T
  evs : List (Ev T)

/-- MakeMany builds `count` items by invoking Make `count` times in
order on the same (threaded) factory instance. -/
def Factory.MakeMany (f : Factory σ E T) (count : Nat) (ts : List (Trait T)) :
    MakeManyRes σ E T :=
  match count with
  | 0 => ⟨[], f, []⟩
  | n + 1 =>
    let m := f.Make ts
    let rest := m.fac.MakeMany n ts
    ⟨m.val :: rest.vals, rest.fac, m.evs ++ rest.evs⟩

/-- The sequence values passed to the base constructor, read off an event
trace. -/
def constructSeqs (evs : List (Ev T)) : List Int :=
  evs.filterMap fun e =>
    match e with
    | .construct s => some s
    | _ => none

/-- Runs the before-create hooks in order starting at index `i`,
stopping at the first error (Go: the hook loop in `Create`); returns the
threaded value or the first error, together with one `beforeHook` event
per hook actually invoked (including a failing one). -/
def runBeforeHooks : List (T → Except E T) → T → Nat → Except E T × List (Ev T)
  | [], t, _ => (.ok t, [])
  | h :: hs, t, i =>
    match h t with
    | .error e => (.error e, [.beforeHook i])
    | .ok t' =>
      let r := runBeforeHooks hs t' (i + 1)
      (r.1, .beforeHook i :: r.2)

/-- Runs the after-create hooks in order starting at index `i`, stopping
at the first error, emitting one `afterHook` event per invoked hook. -/
def runAfterHooks : List (T → Except E T) → T → Nat → Except E T × List (Ev T)
  | [], t, _ => (.ok t, [])
  | h :: hs, t, i =>
    match h t with
    | .error e => (.error e, [.afterHook i])
    | .ok t' =>
      let r := runAfterHooks hs t' (i + 1)
      (r.1, .afterHook i :: r.2)

/-- Sequential composition of hooks ignoring events: the threaded value
after all hooks succeed, or the first error. -/
def foldHooks : List (T → Except E T) → T → Except E T
  | [], t => .ok t
  | h :: hs, t =>
    match h t with
    | .error e => .error e
    | .ok t' => foldHooks hs t'

/-- Result of the produce-and-persist operation: the outcome, the
advanced factory, the persistence state, and the event trace. -/
structure CreateRes (σ E T : Type) where
  out : Outcome E T
  fac : Factory σ E T
  st : σ
  evs : List (Ev T)

/-- Create builds, persists and runs hooks. It panics (before touching
the counter) if no persist function is configured; otherwise it runs
Make, then the before-hooks (aborting on the first error without calling
persist or any later hook), then persist (aborting on error without
running after-hooks), then the after-hooks (aborting on the first
error). -/
def Factory.Create (f : Factory σ E T) (st : σ) (ts : List (Trait T)) : CreateRes σ E T :=
  match f.persist with
  | none => ⟨.panic "factory: Create called without persist function; use WithPersist", f, st, []⟩
  | some p =>
    let m := f.Make ts
    match runBeforeHooks f.before m.val 0 with
    | (.error e, bevs) => ⟨.err e, m.fac, st, m.evs ++ bevs⟩
    | (.ok obj, bevs) =>
      let pr := p st obj
      match pr.2 with
      | .error e => ⟨.err e, m.fac, pr.1, m.evs ++ bevs ++ [.persistCall]⟩
      | .ok out =>
        match runAfterHooks f.after out 0 with
        | (.error e, aevs) => ⟨.err e, m.fac, pr.1, m.evs ++ bevs ++ [.persistCall] ++ aevs⟩
        | (.ok out2, aevs) => ⟨.ok out2, m.fac, pr.1, m.evs ++ bevs ++ [.persistCall] ++ aevs⟩

/-- Result shape of Go's `([]*T, error)` pair of CreateMany, plus a
panic case: `done items err?` returns the already-persisted items
together with an optional error. -/
inductive ManyResult (E T : Type) where
  | panic (msg : String)
  | done (items : List T) (err : Option E)
deriving DecidableEq

/-- The loop body of CreateMany: invoke Create `n` times, threading the
factory and persistence state; on the first error stop and return the
items persisted so far together with the error. -/
def Factory.CreateManyLoop (f : Factory σ E T) (st : σ) (ts : List (Trait T)) :
    Nat → ManyResult E T × Factory σ E T × σ × List (Ev T)
  | 0 => (.done [] none, f, st, [])
  | n + 1 =>
    let c := f.Create st ts
    match c.out with
    | .ok t =>
      match c.fac.CreateManyLoop c.st ts n with
      | (.done its e?, f2, st2, evs2) => (.done (t :: its) e?, f2, st2, c.evs ++ evs2)
      | (.panic m, f2, st2, evs2) => (.panic m, f2, st2, c.evs ++ evs2)
    | .err e => (.done [] (some e), c.fac, c.st, c.evs)
    | .panic m => (.panic m, c.fac, c.st, c.evs)

/-- CreateMany builds, persists and runs hooks for `count` items; panics
up front when no persist function is configured. -/
def Factory.CreateMany (f : Factory σ E T) (st : σ) (count : Nat) (ts : List (Trait T)) :
    ManyResult E T × Factory σ E T × σ × List (Ev T) :=
  match f.persist with
  | none => (.panic "factory: CreateMany called without persist function; use WithPersist", f, st, [])
  | some _ => f.CreateManyLoop st ts count

/-- The outcome of the `i`-th of `n` successive Create invocations on
the same threaded factory instance (used to phrase hypotheses about
which invocation fails). -/
def Factory.createSeq (f : Factory σ E T) (st : σ) (ts : List (Trait T)) :
    Nat → List (Outcome E T)
  | 0 => []
  | n + 1 =>
    let c := f.Create st ts
    c.out :: c.fac.createSeq c.st ts n

/-- Events of a composite two-factory operation: `fst` tags events of the
primary factory (of type `A`), `snd` tags events of the related factory
(of type `B`). -/
inductive RelEv (A B : Type) where
  | fst (e : Ev A)
  | snd (e : Ev B)
deriving DecidableEq

/-- ForModel sets up a belongs-to relationship using an existing related
model instance: it shallow-copies the factory and appends a (pure) trait
that links the produced value to the fixed `related` instance. The Go
link function `func(*T, *R)` is modelled as updating the child,
`T → R → T`, matching its use for setting foreign-key fields. -/
def ForModel (f : Factory σ E T) (related : R) (linkFn : T → R → T) : Factory σ E T :=
  { f with traits := f.traits ++ [fun t => linkFn t related] }

/-- Recycle is an alias for ForModel. -/
def Recycle (f : Factory σ E T) (related : R) (linkFn : T → R → T) : Factory σ E T :=
  ForModel f related linkFn

/-- The state of a belongs-to-unique composition (Go `For`): the Go
function copies the child factory and appends to its defaults a closure
that calls `relatedFactory.Make()` and links the fresh parent to the
child. That closure mutates the captured related factory's counter, so
the composition is modelled as its own state with the composed Make and
Create unfolded below. -/
structure ForFactory (σ E T R : Type) where
  /-- the copied child factory (the closure is kept out of its defaults
  and inlined into the operations below) -/
  base : Factory σ E T
  /-- the captured related (parent) factory -/
  rel : Factory σ E R
  /-- the link function `func(*T, *R)`, modelled as updating the child -/
  linkFn : T → R → T

/-- For sets up a belongs-to relationship: copy the child factory and
capture the related factory and link function. -/
def For (f : Factory σ E T) (relatedFactory : Factory σ E R) (linkFn : T → R → T) :
    ForFactory σ E T R :=
  ⟨f, relatedFactory, linkFn⟩

/-- Result of producing one item from a For composition. -/
structure ForMakeRes (σ E T R : Type) where
  val : T
  ff : ForFactory σ E T R
  evs : List (RelEv T R)

/-- Make on a For composition: the child pipeline with the appended
default inlined in place — after the original defaults, produce one
fresh parent via the related factory's Make (advancing its counter) and
apply the link function, then continue with global traits, the sequence
stage, per-call traits and the tap observer. -/
def ForFactory.Make (ff : ForFactory σ E T R) (ts : List (Trait T)) : ForMakeRes σ E T R :=
  let s := ff.base.seq + 1
  let t1 := applyTraits ff.base.defaults (ff.base.makeFn s)
  let mr := ff.rel.Make []
  let t1l := ff.linkFn t1 mr.val
  let t2 := applyTraits ff.base.traits t1l
  let t3 := seqStage ff.base.sequences s t2
  let t4 := applyTraits ts t3
  ⟨t4, ⟨{ ff.base with seq := s }, mr.fac, ff.linkFn⟩,
    RelEv.fst (Ev.construct s) :: mr.evs.map RelEv.snd
      ++ (if ff.base.tapSet then [RelEv.fst (Ev.tap t4)] else [])⟩

/-- Result of produce-and-persist on a For composition. -/
structure ForCreateRes (σ E T R : Type) where
  out : Outcome E T
  ff : ForFactory σ E T R
  st : σ
  evs : List (RelEv T R)

/-- Create on a For composition: the child factory's Create with the
composed Make inlined. Only the child factory's persist function is ever
invoked; the related factory contributes only its Make (its events are
tagged `snd`). -/
def ForFactory.Create (ff : ForFactory σ E T R) (st : σ) (ts : List (Trait T)) :
    ForCreateRes σ E T R :=
  match ff.base.persist with
  | none => ⟨.panic "factory: Create called without persist function; use WithPersist", ff, st, []⟩
  | some p =>
    let m := ff.Make ts
    match runBeforeHooks ff.base.before m.val 0 with
    | (.error e, bevs) => ⟨.err e, m.ff, st, m.evs ++ bevs.map RelEv.fst⟩
    | (.ok obj, bevs) =>
      let pr := p st obj
      match pr.2 with
      | .error e => ⟨.err e, m.ff, pr.1, m.evs ++ bevs.map RelEv.fst ++ [RelEv.fst .persistCall]⟩
      | .ok out =>
        match runAfterHooks ff.base.after out 0 with
        | (.error e, aevs) =>
          ⟨.err e, m.ff, pr.1,
            m.evs ++ bevs.map RelEv.fst ++ [RelEv.fst .persistCall] ++ aevs.map RelEv.fst⟩
        | (.ok out2, aevs) =>
          ⟨.ok out2, m.ff, pr.1,
            m.evs ++ bevs.map RelEv.fst ++ [RelEv.fst .persistCall] ++ aevs.map RelEv.fst⟩

/-- HasFactory manages has-many relationships (Go `HasFactory[T, R]`).
The Go `count int` loop runs `max(count, 0)` iterations, modelled with a
`Nat`. The link function `func(parent *T, child *R)` is modelled as
updating the child, matching its use for setting foreign keys. -/
structure HasFactory (σ E T R : Type) where
  parent : Factory σ E T
  child : Factory σ E R
  count : Nat
  linkFn : Option (T → R → R)

/-- Has creates a parent model with `count` linked child models. -/
def Has (parentFactory : Factory σ E T) (childFactory : Factory σ E R) (count : Nat)
    (linkFn : T → R → R) : HasFactory σ E T R :=
  ⟨parentFactory, childFactory, count, some linkFn⟩

/-- Result shape of `HasFactory.Create` (Go `(*T, []*R, error)`):
`earlyErr` is the parent-creation failure (`nil, nil, err`); `res`
carries the persisted parent, the already-persisted children and an
optional error from a child step. -/
inductive HasResult (E T R : Type) where
  | panic (msg : String)
  | earlyErr (e : E)
  | res (parent : T) (children : List R) (err : Option E)
deriving DecidableEq

/-- The child loop of `HasFactory.Create`: each iteration derives a
fresh copy of the (unchanged) child factory via Recycle and calls its
Create, threading only the persistence state; the first error stops the
loop, returning the children persisted so far. -/
def hasChildLoop (cf : Factory σ E R) (st : σ) :
    Nat → ManyResult E R × σ × List (Ev R)
  | 0 => (.done [] none, st, [])
  | n + 1 =>
    let c := cf.Create st []
    match c.out with
    | .ok child =>
      match hasChildLoop cf c.st n with
      | (.done cs e?, st2, evs2) => (.done (child :: cs) e?, st2, c.evs ++ evs2)
      | (.panic m, st2, evs2) => (.panic m, st2, c.evs ++ evs2)
    | .err e => (.done [] (some e), c.st, c.evs)
    | .panic m => (.panic m, c.st, c.evs)

/-- The child factory used by each iteration of `HasFactory.Create`:
Recycle of the child factory against the persisted parent, with the link
function's parameter order swapped. -/
def HasFactory.childFac (hf : HasFactory σ E T R) (parent : T) : Factory σ E R :=
  match hf.linkFn with
  | some link => Recycle hf.child parent (fun c p => link p c)
  | none => hf.child

/-- Create on a has-many composition: persist the parent first (its
failure aborts with no children), then persist the children one by one;
a child failure returns the parent together with the already persisted
children and the error. -/
def HasFactory.Create (hf : HasFactory σ E T R) (st : σ) :
    HasResult E T R × σ × List (RelEv T R) :=
  let c := hf.parent.Create st []
  match c.out with
  | .panic m => (.panic m, c.st, c.evs.map RelEv.fst)
  | .err e => (.earlyErr e, c.st, c.evs.map RelEv.fst)
  | .ok parent =>
    match hasChildLoop (hf.childFac parent) c.st hf.count with
    | (.done cs e?, st2, cevs) =>
      (.res parent cs e?, st2, c.evs.map RelEv.fst ++ cevs.map RelEv.snd)
    | (.panic m, st2, cevs) =>
      (.panic m, st2, c.evs.map RelEv.fst ++ cevs.map RelEv.snd)

/-- The outcome of the `i`-th child Create in the has-many loop: unlike
`Factory.createSeq`, every iteration starts from the same factory value
(the Go loop re-derives the Recycle copy from the untouched child
factory each time), so only the persistence state is threaded. -/
def constCreateSeq (cf : Factory σ E R) (st : σ) : Nat → List (Outcome E R)
  | 0 => []
  | n + 1 =>
    let c := cf.Create st []
    c.out :: constCreateSeq cf c.st n

/-! Concrete instances used by the witness and counterexample theorems. -/

/-- Witness factory for the named-state counter behaviour: base
constructor is the identity on the sequence value, with one (identity)
named state registered. -/
def c2base : Factory Unit Unit Int :=
  (New (fun s => s)).DefineState "adv" (fun t => t)

/-- The witness factory after one Make, so its counter is advanced to 1. -/
def c2src : Factory Unit Unit Int :=
  (c2base.Make []).fac

/-- The constructor sequence values observed by the first Make on the
factory returned by applying the named state to `c2src`. -/
def c2probe : List Int :=
  match c2src.State "adv" with
  | .ok g => constructSeqs (g.Make []).evs
  | _ => []

/-- Parent factory for the belongs-to persistence scenario: its persist
function counts its own invocations in the first component of the
state. -/
def c3parent : Factory (Nat × Nat) String Int :=
  (New (fun s => s)).WithPersist (fun st t => ((st.1 + 1, st.2), .ok t))

/-- Child factory for the belongs-to persistence scenario: its persist
function counts its own invocations in the second component of the
state. -/
def c3child : Factory (Nat × Nat) String Int :=
  (New (fun s => s * 10)).WithPersist (fun st t => ((st.1, st.2 + 1), .ok t))

/-- The belongs-to-unique composition of the two factories above; the
link function adds the fresh parent value to the child. -/
def c3ff : ForFactory (Nat × Nat) String Int Int :=
  For c3child c3parent (fun c p => c + p)

/-- Witness factory for layer ordering: defaults set the second
component to 1, global traits set it to 2; the sequence pattern is
empty. -/
def c1fac : Factory Unit Unit (Int × Int) :=
  ((New (fun s => (s, 0))).WithDefaults [fun t => (t.1, 1)]).WithTraits [fun t => (t.1, 2)]

/-- Witness factory for sequence-pattern cycling: a two-element pattern
writing 7 resp. 9 into the second component. -/
def c5fac : Factory Unit Unit (Int × Int) :=
  (New (fun s => (s, 0))).Sequence [fun t => (t.1, 7), fun t => (t.1, 9)]

/-- Witness factory for raw-only defaults: one rawDefaults entry setting
the second component to 5. -/
def c6fac : Factory Unit Unit (Int × Int) :=
  (New (fun s => (s, 0))).WithRawDefaults [fun t => (t.1, 5)]

/-- Witness factory for before-hook failure: one failing before-hook and
a persist function that counts its invocations. -/
def c7fac : Factory Nat String Int :=
  ((New (fun s => s)).WithPersist (fun n t => (n + 1, .ok t))).BeforeCreate
    (fun _ => .error "boom")

/-- Witness factory for partial batch persistence: persist counts its
calls and fails on its third invocation. -/
def c8fac : Factory Nat Unit Int :=
  (New (fun s => s)).WithPersist (fun n t => (n + 1, if n = 2 then .error () else .ok t))

/-- Parent factory for the has-many partial-failure witness: persist
always succeeds, marking the value by adding 100. -/
def c8parent : Factory Nat Unit Int :=
  (New (fun s => s)).WithPersist (fun n t => (n, .ok (t + 100)))

/-- Has-many composition for the partial-failure witness: five children
whose shared persist function (the same counting one as `c8fac`) fails
on its third invocation; the link adds the parent value to the child. -/
def c8has : HasFactory Nat Unit Int Int :=
  Has c8parent c8fac 5 (fun p c => c + p)

/-- Witness factory for the equivalence of Raw and Make: no raw-only
defaults, but defaults, traits and a tap observer. -/
def c10fac : Factory Unit Unit Int :=
  (((New (fun s => s)).WithDefaults [fun t => t + 1]).WithTraits [fun t => t * 3]).Tap

/-! Helper lemmas about the pipeline. -/

@[simp]
theorem applyTraits_nil (t : T) : applyTraits ([] : List (Trait T)) t = t := rfl

theorem applyTraits_cons (g : Trait T) (gs : List (Trait T)) (t : T) :
    applyTraits (g :: gs) t = applyTraits gs (g t) := rfl

@[simp]
theorem seqStage_nil (s : Int) (t : T) : seqStage ([] : List (Trait T)) s t = t := rfl

theorem make_evs_eq (f : Factory σ E T) (ts : List (Trait T)) :
    (f.Make ts).evs =
      Ev.construct (f.seq + 1) :: (if f.tapSet then [Ev.tap (f.Make ts).val] else []) := rfl

theorem make_fac_eq (f : Factory σ E T) (ts : List (Trait T)) :
    (f.Make ts).fac = { f with seq := f.seq + 1 } := rfl

theorem mem_make_evs {f : Factory σ E T} {ts : List (Trait T)} {x : Ev T}
    (hx : x ∈ (f.Make ts).evs) :
    x = Ev.construct (f.seq + 1) ∨ x = Ev.tap (f.Make ts).val := by
  rw [make_evs_eq, List.mem_cons] at hx
  rcases hx with hx | hx
  · exact Or.inl hx
  · by_cases h : f.tapSet
    · simp [h] at hx
      exact Or.inr hx
    · simp [h] at hx

theorem persistCall_not_mem_make_evs (f : Factory σ E T) (ts : List (Trait T)) :
    Ev.persistCall ∉ (f.Make ts).evs := by
  intro hmem
  rcases mem_make_evs hmem with h | h <;> exact Ev.noConfusion h

@[simp]
theorem constructSeqs_nil : constructSeqs ([] : List (Ev T)) = [] := rfl

theorem constructSeqs_append (a b : List (Ev T)) :
    constructSeqs (a ++ b) = constructSeqs a ++ constructSeqs b :=
  List.filterMap_append a b _

theorem constructSeqs_make (f : Factory σ E T) (ts : List (Trait T)) :
    constructSeqs (f.Make ts).evs = [f.seq + 1] := by
  rw [make_evs_eq]
  by_cases h : f.tapSet <;> simp [h, constructSeqs]

theorem makeMany_constructSeqs (n : Nat) :
    ∀ (f : Factory σ E T) (ts : List (Trait T)),
      constructSeqs (f.MakeMany n ts).evs =
        (List.range n).map (fun (i : Nat) => f.seq + 1 + (i : Int)) := by
  induction n with
  | zero => intro f ts; simp [Factory.MakeMany]
  | succ n ih =>
    intro f ts
    show constructSeqs ((f.Make ts).evs ++ ((f.Make ts).fac.MakeMany n ts).evs) = _
    rw [constructSeqs_append, constructSeqs_make, ih, make_fac_eq]
    rw [List.range_succ_eq_map, List.map_cons, List.map_map, List.singleton_append]
    refine congrArg₂ _ (by norm_num) (List.map_congr_left fun i _ => ?_)
    show f.seq + 1 + 1 + (i : Int) = f.seq + 1 + ((i + 1 : Nat) : Int)
    push_cast
    ring

theorem runBeforeHooks_first_error (e : E) :
    ∀ (hs : List (T → Except E T)) (h : T → Except E T) (rest : List (T → Except E T))
      (t t1 : T) (i : Nat), foldHooks hs t = .ok t1 → h t1 = .error e →
      runBeforeHooks (hs ++ h :: rest) t i =
        (.error e, (List.range' i (hs.length + 1)).map Ev.beforeHook) := by
  intro hs
  induction hs with
  | nil =>
    intro h rest t t1 i hok herr
    have ht : t1 = t := by
      simpa [foldHooks] using hok.symm
    subst ht
    simp [runBeforeHooks, herr, List.range'_succ]
  | cons g gs ih =>
    intro h rest t t1 i hok herr
    rw [foldHooks] at hok
    cases hg : g t with
    | error e' => rw [hg] at hok; exact Except.noConfusion hok
    | ok t' =>
      rw [hg] at hok
      dsimp only at hok
      rw [List.cons_append, runBeforeHooks, hg]
      dsimp only
      rw [ih h rest t' t1 (i + 1) hok herr]
      simp [List.range'_succ]

theorem forMake_evs (ff : ForFactory σ E T R) (ts : List (Trait T)) :
    (ff.Make ts).evs =
      RelEv.fst (Ev.construct (ff.base.seq + 1)) ::
        ((ff.rel.Make []).evs.map RelEv.snd ++
          (if ff.base.tapSet then [RelEv.fst (Ev.tap (ff.Make ts).val)] else [])) := rfl

theorem snd_persistCall_not_mem_map_fst (l : List (Ev T)) :
    RelEv.snd (Ev.persistCall : Ev R) ∉ l.map (RelEv.fst : Ev T → RelEv T R) := by
  intro hmem
  rcases List.mem_map.mp hmem with ⟨x, _, hx⟩
  exact RelEv.noConfusion hx

theorem snd_persistCall_not_mem_forMake (ff : ForFactory σ E T R) (ts : List (Trait T)) :
    RelEv.snd Ev.persistCall ∉ (ff.Make ts).evs := by
  intro hmem
  rw [forMake_evs, List.mem_cons] at hmem
  rcases hmem with hmem | hmem
  · exact RelEv.noConfusion hmem
  · rw [List.mem_append] at hmem
    rcases hmem with hmem | hmem
    · rcases List.mem_map.mp hmem with ⟨x, hx, hfx⟩
      have : x = Ev.persistCall := by
        injection hfx
      subst this
      exact persistCall_not_mem_make_evs ff.rel [] hx
    · by_cases h : ff.base.tapSet
      · rw [if_pos h, List.mem_singleton] at hmem
        exact RelEv.noConfusion hmem
      · rw [if_neg h] at hmem
        exact List.not_mem_nil _ hmem

theorem createSeq_succ (f : Factory σ E T) (st : σ) (ts : List (Trait T)) (n : Nat) :
    f.createSeq st ts (n + 1) =
      (f.Create st ts).out ::
        (f.Create st ts).fac.createSeq (f.Create st ts).st ts n := rfl

theorem createManyLoop_succ (f : Factory σ E T) (st : σ) (ts : List (Trait T)) (n : Nat) :
    f.CreateManyLoop st ts (n + 1) =
      match (f.Create st ts).out with
      | .ok t =>
        match (f.Create st ts).fac.CreateManyLoop (f.Create st ts).st ts n with
        | (.done its e?, f2, st2, evs2) =>
          (.done (t :: its) e?, f2, st2, (f.Create st ts).evs ++ evs2)
        | (.panic m, f2, st2, evs2) => (.panic m, f2, st2, (f.Create st ts).evs ++ evs2)
      | .err e =>
        (.done [] (some e), (f.Create st ts).fac, (f.Create st ts).st, (f.Create st ts).evs)
      | .panic m =>
        (.panic m, (f.Create st ts).fac, (f.Create st ts).st, (f.Create st ts).evs) := rfl

theorem createManyLoop_partial (e : E) :
    ∀ (vs : List T) (f : Factory σ E T) (st : σ) (ts : List (Trait T)) (n : Nat)
      (rest : List (Outcome E T)),
      f.createSeq st ts n = vs.map .ok ++ .err e :: rest →
      (f.CreateManyLoop st ts n).1 = .done vs (some e) := by
  intro vs
  induction vs with
  | nil =>
    intro f st ts n rest hs
    cases n with
    | zero => simp [Factory.createSeq] at hs
    | succ n =>
      rw [createSeq_succ] at hs
      simp only [List.map_nil, List.nil_append, List.cons.injEq] at hs
      rw [createManyLoop_succ, hs.1]
  | cons v vs ih =>
    intro f st ts n rest hs
    cases n with
    | zero => simp [Factory.createSeq] at hs
    | succ n =>
      rw [createSeq_succ] at hs
      simp only [List.map_cons, List.cons_append, List.cons.injEq] at hs
      have htail := ih (f.Create st ts).fac (f.Create st ts).st ts n rest hs.2
      rcases hl : (f.Create st ts).fac.CreateManyLoop (f.Create st ts).st ts n
        with ⟨r, f2, st2, evs2⟩
      rw [hl] at htail
      dsimp only at htail
      subst htail
      rw [createManyLoop_succ, hs.1, hl]

theorem constCreateSeq_succ (cf : Factory σ E R) (st : σ) (n : Nat) :
    constCreateSeq cf st (n + 1) =
      (cf.Create st []).out :: constCreateSeq cf (cf.Create st []).st n := rfl

theorem hasChildLoop_succ (cf : Factory σ E R) (st : σ) (n : Nat) :
    hasChildLoop cf st (n + 1) =
      match (cf.Create st []).out with
      | .ok child =>
        match hasChildLoop cf (cf.Create st []).st n with
        | (.done cs e?, st2, evs2) => (.done (child :: cs) e?, st2, (cf.Create st []).evs ++ evs2)
        | (.panic m, st2, evs2) => (.panic m, st2, (cf.Create st []).evs ++ evs2)
      | .err e => (.done [] (some e), (cf.Create st []).st, (cf.Create st []).evs)
      | .panic m => (.panic m, (cf.Create st []).st, (cf.Create st []).evs) := rfl

theorem hasChildLoop_partial (e : E) :
    ∀ (vs : List R) (cf : Factory σ E R) (st : σ) (n : Nat) (rest : List (Outcome E R)),
      constCreateSeq cf st n = vs.map .ok ++ .err e :: rest →
      (hasChildLoop cf st n).1 = .done vs (some e) := by
  intro vs
  induction vs with
  | nil =>
    intro cf st n rest hs
    cases n with
    | zero => simp [constCreateSeq] at hs
    | succ n =>
      rw [constCreateSeq_succ] at hs
      simp only [List.map_nil, List.nil_append, List.cons.injEq] at hs
      rw [hasChildLoop_succ, hs.1]
  | cons v vs ih =>
    intro cf st n rest hs
    cases n with
    | zero => simp [constCreateSeq] at hs
    | succ n =>
      rw [constCreateSeq_succ] at hs
      simp only [List.map_cons, List.cons_append, List.cons.injEq] at hs
      have htail := ih cf (cf.Create st []).st n rest hs.2
      rcases hl : hasChildLoop cf (cf.Create st []).st n with ⟨r, st2, evs2⟩
      rw [hl] at htail
      dsimp only at htail
      subst htail
      rw [hasChildLoop_succ, hs.1, hl]

/-! Claim theorems. -/

/-- C4: for every definition with an empty sequence pattern, invoking
produce-one (Make) n times in succession on the same instance (whose
counter starts at 0) yields the sequence values 1, 2, ..., n in
invocation order, each value strictly greater than the previous one. -/
theorem c4_sequence_one_to_n (f : Factory σ E T) (ts : List (Trait T)) (n : Nat)
    (hpat : f.sequences = []) (hseq : f.seq = 0) :
    constructSeqs (f.MakeMany n ts).evs = (List.range n).map (fun (i : Nat) => (i : Int) + 1) ∧
    List.Chain' (· < ·) (constructSeqs (f.MakeMany n ts).evs) := by
  have hmain : constructSeqs (f.MakeMany n ts).evs =
      (List.range n).map (fun (i : Nat) => (i : Int) + 1) := by
    rw [makeMany_constructSeqs, hseq]
    exact List.map_congr_left fun i _ => by ring
  refine ⟨hmain, ?_⟩
  rw [hmain]
  refine List.Pairwise.chain' ?_
  refine (List.pairwise_lt_range n).map _ fun a b hab => ?_
  have : (a : Int) < (b : Int) := by exact_mod_cast hab
  omega

/-- C4 witness: three successive Makes on a fresh factory consume the
sequence values 1, 2, 3. -/
theorem c4_witness :
    constructSeqs (((New (fun s => s) : Factory Unit Unit Int).MakeMany 3 []).evs) =
      [1, 2, 3] ∧
    List.Chain' (· < ·)
      (constructSeqs (((New (fun s => s) : Factory Unit Unit Int).MakeMany 3 []).evs)) := by
  have h := c4_sequence_one_to_n (New (fun s => s) : Factory Unit Unit Int) [] 3 rfl rfl
  exact ⟨by rw [h.1]; rfl, h.2⟩

/-- C9: configuration errors abort rather than return recoverable error
values: Create and CreateMany panic when no persist function is
configured, and applying an undefined named state panics — none of these
silently no-ops or returns an error value. -/
theorem c9_config_errors_panic :
    (∀ (f : Factory σ E T) (st : σ) (ts : List (Trait T)), f.persist = none →
      (f.Create st ts).out =
        .panic "factory: Create called without persist function; use WithPersist") ∧
    (∀ (f : Factory σ E T) (st : σ) (n : Nat) (ts : List (Trait T)), f.persist = none →
      (f.CreateMany st n ts).1 =
        .panic "factory: CreateMany called without persist function; use WithPersist") ∧
    (∀ (f : Factory σ E T) (name : String), f.states name = none →
      f.State name = .panic ("factory: unknown state " ++ name)) := by
  refine ⟨fun f st ts h => ?_, fun f st n ts h => ?_, fun f name h => ?_⟩
  · simp [Factory.Create, h]
  · simp [Factory.CreateMany, h]
  · simp [Factory.State, h]

/-- C9 witness: on a freshly constructed factory (no persist function,
no states), Create and CreateMany panic and applying the undefined state
name panics. -/
theorem c9_witness :
    ((New (fun s => s) : Factory Unit Unit Int).Create () []).out =
      .panic "factory: Create called without persist function; use WithPersist" ∧
    ((New (fun s => s) : Factory Unit Unit Int).CreateMany () 2 []).1 =
      .panic "factory: CreateMany called without persist function; use WithPersist" ∧
    (New (fun s => s) : Factory Unit Unit Int).State "admin" =
      .panic "factory: unknown state admin" :=
  ⟨c9_config_errors_panic.1 _ () [] rfl,
   c9_config_errors_panic.2.1 _ () 2 [] rfl,
   c9_config_errors_panic.2.2 _ "admin" rfl⟩

/-- C10: for every factory whose rawOnlyDefaults list is empty, Raw and
Make are interchangeable: from the same counter state with the same
per-call mutations they return the same value, the same advanced
factory (hence identical counter movement), and the same event trace
(hence identical tap-observer invocations). -/
theorem c10_raw_make_equiv (f : Factory σ E T) (ts : List (Trait T))
    (hraw : f.rawDefaults = []) : f.Raw ts = f.Make ts := by
  simp [Factory.Raw, Factory.Make, hraw]

/-- C10 witness: on a concrete factory with defaults, traits and a tap
observer but no rawOnlyDefaults, Raw and Make coincide. -/
theorem c10_witness : c10fac.Raw [fun t => t + 7] = c10fac.Make [fun t => t + 7] :=
  c10_raw_make_equiv c10fac [fun t => t + 7] rfl

/-- C2 counterexample: after one Make has advanced the counter of
`c2src` to 1, applying the (defined) named state yields a factory whose
first produced value sees sequence number 2 — not 1 as the claim
states — whereas Clone does restart at 1. -/
theorem c2_counterexample :
    c2src.seq = 1 ∧ c2probe = [2] ∧ c2probe ≠ [1] ∧
    constructSeqs ((c2src.Clone).Make []).evs = [1] := by
  refine ⟨rfl, rfl, ?_, rfl⟩
  decide

/-- C2 (amended): Clone returns an instance with an independently zeroed
counter, so its first produced value sees sequence 1 regardless of the
source counter; State(name) on a defined name returns a new instance
with the state trait appended, but its counter carries over the source's
current value k, so its first produced value sees sequence k + 1. -/
theorem c2_state_clone_counter :
    (∀ (f : Factory σ E T) (ts : List (Trait T)),
      (f.Clone).seq = 0 ∧ constructSeqs ((f.Clone).Make ts).evs = [1]) ∧
    (∀ (f : Factory σ E T) (name : String) (tr : Trait T) (ts : List (Trait T)),
      f.states name = some tr →
      ∃ g, f.State name = .ok g ∧ g.traits = f.traits ++ [tr] ∧ g.seq = f.seq ∧
        constructSeqs ((g.Make ts).evs) = [f.seq + 1]) := by
  constructor
  · intro f ts
    refine ⟨rfl, ?_⟩
    rw [constructSeqs_make]
    norm_num
    rfl
  · intro f name tr ts h
    refine ⟨{ f with traits := f.traits ++ [tr] }, ?_, rfl, rfl, ?_⟩
    · simp [Factory.State, h]
    · rw [constructSeqs_make]

/-- C1: mutation layers are applied in order construct, defaults,
(rawOnlyDefaults iff raw path), global traits, sequence stage, per-call
mutations; hence when the defaults pin a field to A, the global traits
pin it to B and the per-call mutations pin it to C (with an empty
sequence pattern), produce-one returns C, dropping the per-call
mutations yields B, and dropping the global traits too yields A. -/
theorem c1_layer_order {V : Type} (f : Factory σ E T) (ts : List (Trait T))
    (get : T → V) (A B C : V)
    (hA : ∀ t, get (applyTraits f.defaults t) = A)
    (hB : ∀ t, get (applyTraits f.traits t) = B)
    (hC : ∀ t, get (applyTraits ts t) = C)
    (hpat : f.sequences = []) :
    ((f.Make ts).val =
        applyTraits ts (seqStage f.sequences (f.seq + 1)
          (applyTraits f.traits (applyTraits f.defaults (f.makeFn (f.seq + 1))))) ∧
      (f.Raw ts).val =
        applyTraits ts (seqStage f.sequences (f.seq + 1)
          (applyTraits f.traits (applyTraits f.rawDefaults
            (applyTraits f.defaults (f.makeFn (f.seq + 1))))))) ∧
    get (f.Make ts).val = C ∧
    get (f.Make []).val = B ∧
    get (({ f with traits := [] } : Factory σ E T).Make []).val = A := by
  refine ⟨⟨rfl, rfl⟩, hC _, ?_, ?_⟩
  · show get (applyTraits [] (seqStage f.sequences (f.seq + 1)
      (applyTraits f.traits (applyTraits f.defaults (f.makeFn (f.seq + 1)))))) = B
    rw [applyTraits_nil, hpat, seqStage_nil, hB]
  · show get (applyTraits [] (seqStage f.sequences (f.seq + 1)
      (applyTraits [] (applyTraits f.defaults (f.makeFn (f.seq + 1)))))) = A
    rw [applyTraits_nil, applyTraits_nil, hpat, seqStage_nil, hA]

/-- C1 witness: on a concrete factory whose defaults set the second
component to 1 and whose traits set it to 2, with a per-call mutation
setting it to 3, Make returns 3; without the per-call mutation, 2;
without the global traits as well, 1. -/
theorem c1_witness :
    Prod.snd (c1fac.Make [fun t => (t.1, 3)]).val = 3 ∧
    Prod.snd (c1fac.Make []).val = 2 ∧
    Prod.snd (({ c1fac with traits := [] } : Factory Unit Unit (Int × Int)).Make []).val = 1 :=
  have h := c1_layer_order c1fac [fun t => (t.1, 3)] Prod.snd 1 2 3
    (fun _ => rfl) (fun _ => rfl) (fun _ => rfl) rfl
  ⟨h.2.1, h.2.2.1, h.2.2.2⟩

/-- C5: when the sequence pattern is non-empty, the item produced with
sequence value seq has pattern element at index (seq-1) mod length
applied to it; an empty pattern applies no cyclic stage; and with a
2-element pattern [X, Y] writing x resp. y into a field, five
successively produced items carry x, y, x, y, x in order. -/
theorem c5_sequence_pattern {V : Type} :
    (∀ (f : Factory σ E T) (ts : List (Trait T)), f.sequences ≠ [] →
      (f.Make ts).val =
        applyTraits ts
          ((f.sequences.getD ((f.seq + 1 - 1).tmod (f.sequences.length : Int)).toNat id)
            (applyTraits f.traits (applyTraits f.defaults (f.makeFn (f.seq + 1)))))) ∧
    (∀ (f : Factory σ E T) (ts : List (Trait T)), f.sequences = [] →
      (f.Make ts).val =
        applyTraits ts (applyTraits f.traits (applyTraits f.defaults (f.makeFn (f.seq + 1))))) ∧
    (∀ (f : Factory σ E T) (get : T → V) (setv : V → T → T) (x y : V) (ts : List (Trait T)),
      f.sequences = [fun t => setv x t, fun t => setv y t] →
      (∀ v t, get (setv v t) = v) →
      (∀ t, get (applyTraits ts t) = get t) →
      f.seq = 0 →
      ((f.MakeMany 5 ts).vals).map get = [x, y, x, y, x]) := by
  refine ⟨?_, ?_, ?_⟩
  · intro f ts h
    show applyTraits ts (seqStage f.sequences (f.seq + 1) _) = _
    cases hp : f.sequences with
    | nil => exact absurd hp h
    | cons a l => simp [seqStage, hp]
  · intro f ts h
    show applyTraits ts (seqStage f.sequences (f.seq + 1) _) = _
    rw [h, seqStage_nil]
  · intro f get setv x y ts hpat hgs hts hseq
    have d0 : (((0 : Int)).tmod 2).toNat = 0 := by decide
    have d1 : (((1 : Int)).tmod 2).toNat = 1 := by decide
    have d2 : (((2 : Int)).tmod 2).toNat = 0 := by decide
    have d3 : (((3 : Int)).tmod 2).toNat = 1 := by decide
    have d4 : (((4 : Int)).tmod 2).toNat = 0 := by decide
    show List.map get
      ((f.Make ts).val :: ((f.Make ts).fac.Make ts).val ::
        (((f.Make ts).fac.Make ts).fac.Make ts).val ::
        ((((f.Make ts).fac.Make ts).fac.Make ts).fac.Make ts).val ::
        (((((f.Make ts).fac.Make ts).fac.Make ts).fac.Make ts).fac.Make ts).val :: []) =
      [x, y, x, y, x]
    simp only [Factory.Make, List.map_cons, List.map_nil]
    simp only [hpat, hts, hseq]
    norm_num [seqStage, d0, d1, d2, d3, d4, hgs]

/-- C5 witness: on a concrete factory with the 2-element pattern writing
7 resp. 9 into the second component, five produced items carry the
pattern values 7, 9, 7, 9, 7 in order. -/
theorem c5_witness :
    ((c5fac.MakeMany 5 []).vals).map Prod.snd = [7, 9, 7, 9, 7] :=
  c5_sequence_pattern.2.2 c5fac Prod.snd (fun w t => (t.1, w)) 7 9 []
    rfl (fun _ _ => rfl) (fun _ => rfl) rfl

/-- C6: raw-only defaults affect only raw-mode production: with a
rawOnlyDefaults entry setting a field (and no other layer touching it),
Make returns the field at its construct-time value while Raw returns the
rawOnlyDefaults value. -/
theorem c6_raw_only_defaults {V : Type} (f : Factory σ E T) (get : T → V) (setv : V → T → T)
    (v : V) (ts : List (Trait T))
    (hraw : f.rawDefaults = [fun t => setv v t])
    (hgs : ∀ w t, get (setv w t) = w)
    (hd : ∀ t, get (applyTraits f.defaults t) = get t)
    (htr : ∀ t, get (applyTraits f.traits t) = get t)
    (hts : ∀ t, get (applyTraits ts t) = get t)
    (hpat : f.sequences = []) :
    get (f.Make ts).val = get (f.makeFn (f.seq + 1)) ∧ get (f.Raw ts).val = v := by
  constructor
  · show get (applyTraits ts (seqStage f.sequences (f.seq + 1)
      (applyTraits f.traits (applyTraits f.defaults (f.makeFn (f.seq + 1)))))) = _
    rw [hts, hpat, seqStage_nil, htr, hd]
  · show get (applyTraits ts (seqStage f.sequences (f.seq + 1)
      (applyTraits f.traits (applyTraits f.rawDefaults
        (applyTraits f.defaults (f.makeFn (f.seq + 1))))))) = _
    rw [hts, hpat, seqStage_nil, htr, hraw, applyTraits_cons, applyTraits_nil, hgs]

/-- C6 witness: on a concrete factory whose only rawDefaults entry sets
the second component to 5, Make leaves the second component at its
construct-time value while Raw returns 5. -/
theorem c6_witness :
    Prod.snd (c6fac.Make []).val = Prod.snd (c6fac.makeFn (c6fac.seq + 1)) ∧
    Prod.snd (c6fac.Raw []).val = 5 :=
  c6_raw_only_defaults c6fac Prod.snd (fun w t => (t.1, w)) 5 [] rfl
    (fun _ _ => rfl) (fun _ => rfl) (fun _ => rfl) (fun _ => rfl) rfl

/-- C2 witness: on the concrete advanced factory `c2src` (counter 1),
applying the defined state yields a factory whose first Make sees
sequence 2, while Clone of the same factory sees sequence 1. -/
theorem c2_witness :
    ((c2src.Clone).seq = 0 ∧ constructSeqs ((c2src.Clone).Make []).evs = [1]) ∧
    (∃ g, c2src.State "adv" = .ok g ∧ g.traits = c2src.traits ++ [fun t => t] ∧
      g.seq = c2src.seq ∧ constructSeqs ((g.Make []).evs) = [c2src.seq + 1]) :=
  ⟨c2_state_clone_counter.1 c2src [],
   c2_state_clone_counter.2 c2src "adv" (fun t => t) [] rfl⟩

/-- C7: if a before-hook fails during produce-and-persist (Create), the
operation aborts immediately: the persist function is never invoked
(and the persistence state is untouched), no after-hook runs, no
before-hook past the failing one runs, and the returned error is exactly
the failing hook's error. -/
theorem c7_before_hook_aborts (f : Factory σ E T) (st : σ) (ts : List (Trait T))
    (p : σ → T → σ × Except E T) (hs : List (T → Except E T)) (h : T → Except E T)
    (rest : List (T → Except E T)) (t1 : T) (e : E)
    (hp : f.persist = some p)
    (hbef : f.before = hs ++ h :: rest)
    (hok : foldHooks hs (f.Make ts).val = .ok t1)
    (herr : h t1 = .error e) :
    (f.Create st ts).out = .err e ∧
    (f.Create st ts).st = st ∧
    Ev.persistCall ∉ (f.Create st ts).evs ∧
    (∀ j, Ev.afterHook j ∉ (f.Create st ts).evs) ∧
    (∀ j, Ev.beforeHook j ∈ (f.Create st ts).evs → j ≤ hs.length) := by
  have hcreate : f.Create st ts =
      ⟨.err e, (f.Make ts).fac, st,
        (f.Make ts).evs ++ (List.range (hs.length + 1)).map Ev.beforeHook⟩ := by
    unfold Factory.Create
    rw [hp]
    dsimp only
    rw [hbef, runBeforeHooks_first_error e hs h rest _ t1 0 hok herr]
    rw [List.range_eq_range']
  rw [hcreate]
  refine ⟨rfl, rfl, ?_, ?_, ?_⟩
  · intro hmem
    rw [List.mem_append] at hmem
    rcases hmem with hmem | hmem
    · exact persistCall_not_mem_make_evs f ts hmem
    · rcases List.mem_map.mp hmem with ⟨j, _, hj⟩
      exact Ev.noConfusion hj
  · intro j hmem
    rw [List.mem_append] at hmem
    rcases hmem with hmem | hmem
    · rcases mem_make_evs hmem with hx | hx <;> exact Ev.noConfusion hx
    · rcases List.mem_map.mp hmem with ⟨j', _, hj⟩
      exact Ev.noConfusion hj
  · intro j hmem
    rw [List.mem_append] at hmem
    rcases hmem with hmem | hmem
    · rcases mem_make_evs hmem with hx | hx <;> exact Ev.noConfusion hx
    · rcases List.mem_map.mp hmem with ⟨j', hj', he⟩
      cases he
      exact Nat.lt_succ_iff.mp (List.mem_range.mp hj')

/-- C7 witness: on a concrete factory whose single before-hook fails
with the error "boom" and whose persist function counts its calls,
Create returns exactly that error, leaves the call counter at 0, and
the trace shows persist was never invoked. -/
theorem c7_witness :
    (c7fac.Create 0 []).out = .err "boom" ∧
    (c7fac.Create 0 []).st = 0 ∧
    Ev.persistCall ∉ (c7fac.Create 0 []).evs :=
  have h := c7_before_hook_aborts c7fac 0 [] (fun n t => (n + 1, .ok t)) []
    (fun _ => .error "boom") [] (c7fac.Make []).val "boom" rfl rfl rfl rfl
  ⟨h.1, h.2.1, h.2.2.1⟩

/-- C8: batch and composite persistence surfaces partial results on
failure: if the (k = |vs|+1)-th of n Create invocations inside
CreateMany fails, the call returns the error together with exactly the
k-1 previously persisted items vs; and if the (k = |vs|+1)-th child
Create of a has-many run fails, the call returns the error together with
the persisted parent and exactly the first k-1 persisted children. -/
theorem c8_partial_failure :
    (∀ (f : Factory σ E T) (st : σ) (ts : List (Trait T)) (n : Nat) (vs : List T) (e : E)
        (rest : List (Outcome E T)),
      f.createSeq st ts n = vs.map .ok ++ .err e :: rest →
      (f.CreateMany st n ts).1 = .done vs (some e)) ∧
    (∀ (hf : HasFactory σ E T R) (st : σ) (p : T) (vs : List R) (e : E)
        (rest : List (Outcome E R)),
      (hf.parent.Create st []).out = .ok p →
      constCreateSeq (hf.childFac p) ((hf.parent.Create st []).st) hf.count =
        vs.map .ok ++ .err e :: rest →
      (hf.Create st).1 = .res p vs (some e)) := by
  constructor
  · intro f st ts n vs e rest hs
    cases hp : f.persist with
    | none =>
      exfalso
      cases n with
      | zero => simp [Factory.createSeq] at hs
      | succ n =>
        rw [createSeq_succ] at hs
        have hpanic : (f.Create st ts).out =
            .panic "factory: Create called without persist function; use WithPersist" := by
          simp [Factory.Create, hp]
        rw [hpanic] at hs
        cases vs with
        | nil => simp at hs
        | cons v vs => simp at hs
    | some p =>
      have hcm : f.CreateMany st n ts = f.CreateManyLoop st ts n := by
        unfold Factory.CreateMany
        rw [hp]
      rw [hcm]
      exact createManyLoop_partial e vs f st ts n rest hs
  · intro hf st p vs e rest hpar hcs
    rcases hc : hf.parent.Create st [] with ⟨out, fac, st', evs⟩
    rw [hc] at hpar
    dsimp only at hpar
    subst hpar
    rw [hc] at hcs
    dsimp only at hcs
    have hloop := hasChildLoop_partial e vs (hf.childFac p) st' hf.count rest hcs
    rcases hl : hasChildLoop (hf.childFac p) st' hf.count with ⟨r, st2, cevs⟩
    rw [hl] at hloop
    dsimp only at hloop
    subst hloop
    unfold HasFactory.Create
    rw [hc]
    dsimp only
    rw [hl]

/-- C8 witness: with a persist double failing on its third call,
CreateMany of 5 returns exactly the first two persisted items plus the
error, and the has-many run of 5 children returns the persisted parent,
exactly the first two persisted children, and the error. -/
theorem c8_witness :
    (c8fac.CreateMany 0 5 []).1 = .done [1, 2] (some ()) ∧
    (c8has.Create 0).1 = .res 101 [102, 102] (some ()) :=
  ⟨(@c8_partial_failure Nat Unit Int Int).1 c8fac 0 [] 5 [1, 2] () [.ok 4, .ok 5] (by decide),
   (@c8_partial_failure Nat Unit Int Int).2 c8has 0 101 [102, 102] () [.ok 102, .ok 102]
     (by decide) (by decide)⟩

/-- C3 counterexample: on the concrete belongs-to composition `c3ff`
(parent persist counts calls in the first state component, child persist
in the second), Create succeeds and persists the child (one child
persist call in the state and in the trace) while the parent's persist
function is never invoked — the state records zero parent persist calls
and the trace contains no parent persist event, contradicting the
claimed create-and-persist of a fresh parent on the persistence path. -/
theorem c3_counterexample :
    (c3ff.Create (0, 0) []).out = .ok 11 ∧
    (c3ff.Create (0, 0) []).st = (0, 1) ∧
    RelEv.fst Ev.persistCall ∈ (c3ff.Create (0, 0) []).evs ∧
    RelEv.snd Ev.persistCall ∉ (c3ff.Create (0, 0) []).evs := by
  refine ⟨by decide, by decide, by decide, by decide⟩

/-- C3 (amended): in-memory construction on a belongs-to-unique
composition creates one fresh parent per produced child (the related
factory's counter advances by one and its constructor runs) and applies
the link function to the child and that fresh parent; on the persistence
path, Create on the composition only constructs the parent in memory —
the parent definition's persist function is never invoked (no
related-factory persist event ever appears in the trace); only the
child's persist function runs. -/
theorem c3_for_relationship :
    (∀ (ff : ForFactory σ E T R) (ts : List (Trait T)),
      (ff.Make ts).val =
        applyTraits ts (seqStage ff.base.sequences (ff.base.seq + 1)
          (applyTraits ff.base.traits
            (ff.linkFn (applyTraits ff.base.defaults (ff.base.makeFn (ff.base.seq + 1)))
              ((ff.rel.Make []).val)))) ∧
      (ff.Make ts).ff.rel.seq = ff.rel.seq + 1 ∧
      RelEv.snd (Ev.construct (ff.rel.seq + 1)) ∈ (ff.Make ts).evs) ∧
    (∀ (ff : ForFactory σ E T R) (st : σ) (ts : List (Trait T)),
      RelEv.snd Ev.persistCall ∉ (ff.Create st ts).evs) := by
  constructor
  · intro ff ts
    refine ⟨rfl, rfl, ?_⟩
    rw [forMake_evs]
    refine List.mem_cons_of_mem _ (List.mem_append_left _ ?_)
    refine List.mem_map_of_mem _ ?_
    rw [make_evs_eq]
    exact List.mem_cons_self _ _
  · intro ff st ts hmem
    unfold ForFactory.Create at hmem
    cases hp : ff.base.persist with
    | none =>
      rw [hp] at hmem
      exact List.not_mem_nil _ hmem
    | some p =>
      rw [hp] at hmem
      dsimp only at hmem
      rcases hrb : runBeforeHooks ff.base.before (ff.Make ts).val 0 with ⟨r1, bevs⟩
      rw [hrb] at hmem
      cases r1 with
      | error e =>
        dsimp only at hmem
        rw [List.mem_append] at hmem
        rcases hmem with hmem | hmem
        · exact snd_persistCall_not_mem_forMake ff ts hmem
        · exact snd_persistCall_not_mem_map_fst bevs hmem
      | ok obj =>
        dsimp only at hmem
        cases hpr : (p st obj).2 with
        | error e =>
          rw [hpr] at hmem
          dsimp only at hmem
          simp only [List.mem_append, List.mem_singleton] at hmem
          rcases hmem with (hmem | hmem) | hmem
          · exact snd_persistCall_not_mem_forMake ff ts hmem
          · exact snd_persistCall_not_mem_map_fst bevs hmem
          · exact RelEv.noConfusion hmem
        | ok out =>
          rw [hpr] at hmem
          dsimp only at hmem
          rcases hra : runAfterHooks ff.base.after out 0 with ⟨r2, aevs⟩
          rw [hra] at hmem
          cases r2 with
          | error e =>
            dsimp only at hmem
            simp only [List.mem_append, List.mem_singleton] at hmem
            rcases hmem with ((hmem | hmem) | hmem) | hmem
            · exact snd_persistCall_not_mem_forMake ff ts hmem
            · exact snd_persistCall_not_mem_map_fst bevs hmem
            · exact RelEv.noConfusion hmem
            · exact snd_persistCall_not_mem_map_fst aevs hmem
          | ok out2 =>
            dsimp only at hmem
            simp only [List.mem_append, List.mem_singleton] at hmem
            rcases hmem with ((hmem | hmem) | hmem) | hmem
            · exact snd_persistCall_not_mem_forMake ff ts hmem
            · exact snd_persistCall_not_mem_map_fst bevs hmem
            · exact RelEv.noConfusion hmem
            · exact snd_persistCall_not_mem_map_fst aevs hmem

end FactoryGo
